import Mathlib

/-!
# Verification of the gabeda_backend analytics pipeline

Shallow embedding of the analytics pipeline of `apps/analytics`
(`services.py`, `models.py`, `tasks.py`, `serializers.py`) and proofs of
the specified properties.

Conventions:
* Python dicts with insertion order are embedded as association lists.
* Django `DecimalField` / Python `float` amounts are embedded as `ℚ`
  (the guarded division that the claims are about involves only exact
  small ratios; the guard `quantity > 0` rules out division by zero,
  so rational arithmetic is faithful).
* A Django model instance is embedded as a structure holding the fields
  the claims mention; a table is a list of such structures.
* A Python function that can raise embeds as `Except e a` or carries an
  explicit `raised` flag.
-/

namespace Gabeda

/-! ## Transactions and ingestion (`services.py`, `models.py`)

`Transaction` embeds the fields of `apps/analytics/models.py::Transaction`
that the claims refer to; its identity is the unique constraint
`unique_together = [('company', 'transaction_id', 'upload')]`
(models.py:106). -/

structure Transaction where
  company : Nat
  upload : Nat
  transaction_id : String
  quantity : ℚ
  unit_price : ℚ
  total : ℚ
  deriving DecidableEq, Repr

/-- The unique-constraint key of a `Transaction` row:
`('company', 'transaction_id', 'upload')` (models.py:106). -/
def txnKey (t : Transaction) : Nat × String × Nat :=
  (t.company, t.transaction_id, t.upload)

/-- One raw dataframe row, reduced to the columns the claims mention
(after `_validate_and_map_columns` every required column is present). -/
structure RawRow where
  trans_id : String
  quantity : ℚ
  total : ℚ
  deriving DecidableEq, Repr

/-- Embeds the per-row record construction inside
`DatasetGenerationService._save_transactions` (services.py:195-218):
`unit_price = total / quantity if quantity > 0 else 0` (services.py:199).
The function is total: the `quantity > 0` guard means the division is
never evaluated at a zero divisor. -/
def mkTransaction (company upload : Nat) (row : RawRow) : Transaction :=
  { company := company
    upload := upload
    transaction_id := row.trans_id
    quantity := row.quantity
    unit_price := if row.quantity > 0 then row.total / row.quantity else 0
    total := row.total }

/-- Insertion of one row under the unique constraint with
`ignore_conflicts=True`: the row is skipped when a row with the same
`txnKey` already exists, and appended otherwise; either way no error is
raised. -/
def insertIgnoreConflict (acc : List Transaction) (t : Transaction) :
    List Transaction :=
  if ∃ u ∈ acc, txnKey u = txnKey t then acc else acc ++ [t]

/-- Embeds `Transaction.objects.bulk_create(transactions, batch_size=1000,
ignore_conflicts=True)` (services.py:221): each row of the batch is
inserted unless a row with the same unique key `txnKey` is already in the
table (whether pre-existing or inserted earlier in the same batch); a
conflicting row is skipped silently and the batch continues. -/
def bulk_create_ignore_conflicts (db : List Transaction)
    (batch : List Transaction) : List Transaction :=
  batch.foldl insertIgnoreConflict db

/-- Embeds `DatasetGenerationService._save_transactions` (services.py:177-221)
restricted to the claim-relevant fields: build one `Transaction` per
dataframe row, then bulk-insert with conflicts ignored. -/
def save_transactions (company upload : Nat) (db : List Transaction)
    (df : List RawRow) : List Transaction :=
  bulk_create_ignore_conflicts db (df.map (mkTransaction company upload))

/-! ## ProcessingJob (`models.py:268-341`) -/

/-- Embeds the claim-relevant mutable state of
`apps/analytics/models.py::ProcessingJob`. -/
structure ProcessingJob where
  models_to_execute : List String
  models_completed : List String
  current_model : Option String
  status : String
  progress : Nat
  deriving DecidableEq, Repr

/-- Result of `add_completed_model`: the updated in-memory job, and whether
the call raised (`ZeroDivisionError` when `models_to_execute` is empty;
the raise happens after the in-memory append but before the progress
update and the save). -/
structure AddResult where
  job : ProcessingJob
  raised : Bool
  deriving DecidableEq, Repr

/-- Embeds `ProcessingJob.add_completed_model` (models.py:336-341):

```
if model_name not in self.models_completed:
    self.models_completed.append(model_name)
    self.progress = int((len(self.models_completed) / len(self.models_to_execute)) * 100)
    self.save(...)
```

The progress expression is embedded as the natural floor division
`100 * completed / requested`. For every reachable state (at most the 9
catalog names completed) Python float `int((k / n) * 100)` yields exactly
`⌊100 k / n⌋`, which is also what the repository test
`test_add_completed_model_updates_progress` (33, 66, 100) pins down.
When `models_to_execute` is empty the Python code raises
`ZeroDivisionError` after the append; that is the `raised := true` branch. -/
def add_completed_model (j : ProcessingJob) (model_name : String) : AddResult :=
  if model_name ∈ j.models_completed then
    ⟨j, false⟩
  else if j.models_to_execute.length = 0 then
    ⟨{ j with models_completed := j.models_completed ++ [model_name] }, true⟩
  else
    ⟨{ j with
        models_completed := j.models_completed ++ [model_name]
        progress := 100 * (j.models_completed.length + 1) / j.models_to_execute.length },
      false⟩

/-! ## Pipeline execution (`services.py:431-669`, `tasks.py:262-364`) -/

/-- `PipelineExecutionService.MODEL_NAMES` (services.py:446-456):
the 9-model catalog in its declared execution order. -/
def MODEL_NAMES : List String :=
  [ "transactions"
  , "daily"
  , "daily_hour"
  , "weekly"
  , "monthly"
  , "product_daily"
  , "product_month"
  , "customer_daily"
  , "customer_profile" ]

/-- Output of one model body: the `filters` and `attrs` tables, each
optional, abstracted to their row counts (the executor only checks
presence and takes counts/head slices). -/
structure ModelOutput where
  filters : Option Nat
  attrs : Option Nat
  deriving DecidableEq, Repr

/-- Behaviour of `executor.execute_model` for one model: it either returns
an output or raises.  The model bodies live in the external GabeDA engine
(`src.execution.executor`, imported but not part of this repository), so
they are a parameter of the embedding. -/
inductive ModelRun where
  | ok (out : ModelOutput)
  | raises
  deriving DecidableEq, Repr

/-- Whether a `ModelRun` is a normal return. -/
def ModelRun.isOk : ModelRun → Bool
  | .ok _ => true
  | .raises => false

/-- One `ModelResult` record, reduced to its identifying pair
`(model_name, result_type)` (models.py:344-406). -/
structure ModelResultRec where
  model_name : String
  result_type : String
  deriving DecidableEq, Repr

/-- State threaded through the model loop of
`PipelineExecutionService.execute` (services.py:586-651): the job being
mutated, the list of models for which `executor.execute_model` was
invoked, and the `ModelResult` records created so far. -/
structure ExecState where
  job : ProcessingJob
  executed : List String
  results : List ModelResultRec
  deriving DecidableEq, Repr

/-- One iteration of the loop in `PipelineExecutionService.execute`
(services.py:586-651):

1. set `current_model` and persist it (services.py:587-588);
2. run the model body; on an exception, log and `continue`
   (services.py:647-651);
3. on success, create a `filters` and/or `attrs` `ModelResult` for every
   table present (services.py:613-642), then `add_completed_model`
   (services.py:645).  A `ZeroDivisionError` raised inside
   `add_completed_model` is caught by the same per-model handler. -/
def execStep (env : String → ModelRun) (s : ExecState) (model_name : String) :
    ExecState :=
  let j1 := { s.job with current_model := some model_name }
  match env model_name with
  | .raises =>
      { s with job := j1, executed := s.executed ++ [model_name] }
  | .ok out =>
      let withFilters :=
        match out.filters with
        | some _ => s.results ++ [⟨model_name, "filters"⟩]
        | none => s.results
      let withAttrs :=
        match out.attrs with
        | some _ => withFilters ++ [⟨model_name, "attrs"⟩]
        | none => withFilters
      { job := (add_completed_model j1 model_name).job
        executed := s.executed ++ [model_name]
        results := withAttrs }

/-- The model list the executor walks:
`models_to_execute = self.job.models_to_execute or self.MODEL_NAMES`
(services.py:583) — Python `or` substitutes the full catalog exactly when
the stored list is empty. -/
def resolvedModels (j : ProcessingJob) : List String :=
  if j.models_to_execute.isEmpty then MODEL_NAMES else j.models_to_execute

/-- Everything `PipelineExecutionService.execute` produces: the returned
dict (`success`, `models_executed`, `results_created`, services.py:653-669)
plus the observable side effects (final job state, models attempted,
`ModelResult` rows created). -/
structure ExecOutcome where
  success : Bool
  models_executed : Nat
  results_created : Nat
  job : ProcessingJob
  executed : List String
  results : List ModelResultRec
  deriving DecidableEq, Repr

/-- Embeds `PipelineExecutionService.execute` (services.py:543-669).
`loadFails` models a pipeline-level exception in the setup steps that
precede the model loop (GabeDA imports, services.py:562-567, or
`_load_transactions_into_context` raising `ValueError` on an upload with
no transactions, services.py:538-539); every such exception point is
before the first loop iteration, reaches the outer handler
(services.py:659-669) and yields `success: False`.  Once the loop is
reached, every per-model exception is caught (services.py:647-651) and
the method returns `success: True` (services.py:653-657). -/
def execute (env : String → ModelRun) (loadFails : Bool)
    (job : ProcessingJob) : ExecOutcome :=
  if loadFails then
    { success := false
      models_executed := job.models_completed.length
      results_created := 0
      job := job
      executed := []
      results := [] }
  else
    let final := (resolvedModels job).foldl (execStep env) ⟨job, [], []⟩
    { success := true
      models_executed := final.job.models_completed.length
      results_created := final.results.length
      job := final.job
      executed := final.executed
      results := final.results }

/-- Embeds the `process_pipeline` Celery task (tasks.py:262-364) around one
`execute` call: set the job `running` (tasks.py:293-295), execute, then on
`result['success']` set `status = 'completed'` and `current_model = None`
(tasks.py:307-311); otherwise set `status = 'failed'` and record the error
(tasks.py:316-322) — the failure branch does not touch `current_model`,
and the save (tasks.py:324-327) writes back its in-memory value. -/
def process_pipeline (env : String → ModelRun) (loadFails : Bool)
    (job : ProcessingJob) : ProcessingJob :=
  let o := execute env loadFails { job with status := "running" }
  if o.success then
    { o.job with status := "completed", current_model := none }
  else
    { o.job with status := "failed" }

/-! ## Serializer validation (`serializers.py`) -/

/-- One entry of the `data_schema` JSON mapping: presence of the
`source_column` and `dtype` keys is what
`CompanyConfigSerializer.validate_data_schema` checks
(serializers.py:181-197). -/
structure FieldConfig where
  source_column : Option String
  dtype : Option String
  deriving DecidableEq, Repr

/-- A raw `data_schema` value: a JSON object embedded as an association
list in insertion order (Python dicts preserve it). -/
abbrev DataSchema := List (String × FieldConfig)

/-- The five required canonical fields of
`CompanyConfigSerializer.validate_data_schema` (serializers.py:165-171). -/
def required_fields : List String :=
  ["in_dt", "in_trans_id", "in_product_id", "in_quantity", "in_price_total"]

/-- `valid_dtypes` (serializers.py:192). -/
def valid_dtypes : List String := ["date", "str", "float", "int"]

/-- The possible `ValidationError`s of `validate_data_schema`, carrying the
data each message enumerates. -/
inductive SchemaError where
  | missingRequired (fields : List String)
  | missingSourceColumn (field : String)
  | missingDtype (field : String)
  | invalidDtype (field : String) (dtype : String)
  deriving DecidableEq, Repr

/-- The per-field loop of `validate_data_schema` (serializers.py:181-197):
raises at the FIRST field that has no `source_column`, no `dtype`, or a
`dtype` outside `valid_dtypes`; returns `none` when every field passes. -/
def validate_fields : DataSchema → Option SchemaError
  | [] => none
  | (field_name, cfg) :: rest =>
    match cfg.source_column with
    | none => some (.missingSourceColumn field_name)
    | some _ =>
      match cfg.dtype with
      | none => some (.missingDtype field_name)
      | some d =>
        if d ∈ valid_dtypes then validate_fields rest
        else some (.invalidDtype field_name d)

/-- Embeds `CompanyConfigSerializer.validate_data_schema`
(serializers.py:157-199): first collect ALL missing required fields and
raise one error enumerating them (serializers.py:174-178); only if none
is missing, walk the entries and raise at the first malformed one
(serializers.py:181-197); otherwise return the value. -/
def validate_data_schema (value : DataSchema) : Except SchemaError DataSchema :=
  let missing_fields :=
    required_fields.filter (fun f => !(value.map Prod.fst).contains f)
  if missing_fields.isEmpty then
    match validate_fields value with
    | some e => .error e
    | none => .ok value
  else
    .error (.missingRequired missing_fields)

/-- `valid_models` of `ProcessingJobCreateSerializer.validate_models_to_execute`
(serializers.py:374-377). -/
def valid_models : List String :=
  [ "transactions", "daily", "daily_hour", "weekly", "monthly"
  , "product_daily", "product_month", "customer_daily", "customer_profile" ]

/-- The `ValidationError` of `validate_models_to_execute`, carrying the
full list of unrecognized names it enumerates (serializers.py:384-388). -/
inductive ModelsError where
  | invalidModels (names : List String)
  deriving DecidableEq, Repr

/-- Embeds `ProcessingJobCreateSerializer.validate_models_to_execute`
(serializers.py:372-390): an empty list resolves to the full catalog; a
list containing unknown names is rejected with one error listing every
invalid name; otherwise the list is returned unchanged. -/
def validate_models_to_execute (value : List String) :
    Except ModelsError (List String) :=
  if value.isEmpty then
    .ok valid_models
  else
    let invalid_models := value.filter (fun m => !valid_models.contains m)
    if invalid_models.isEmpty then .ok value
    else .error (.invalidModels invalid_models)

/-- Modelled from the spec: the inter-model dependency relation.  The
source's model configs are placeholders (`'exec_seq': []`, no dependency
lists, services.py:591-595) and the GabeDA `DependencyResolver` is in the
external engine, not in this repository; the only dependency edge the
spec names concretely is that `weekly` depends on `daily`. -/
def specDependsOn (model dep : String) : Bool :=
  model = "weekly" && dep = "daily"

/-! ## Concrete instances used to evaluate the definitions -/

/-- An environment in which every model body succeeds and produces both
tables. -/
def envAllOk : String → ModelRun := fun _ => .ok ⟨some 1, some 1⟩

/-- An environment in which the `daily` model body raises and every other
model body succeeds. -/
def envDailyRaises : String → ModelRun :=
  fun m => if m = "daily" then .raises else .ok ⟨some 1, some 1⟩

/-- A freshly created job requesting the given model list
(`status='queued'`, nothing completed, no current model, zero progress). -/
def jobRequest (ms : List String) : ProcessingJob :=
  { models_to_execute := ms
    models_completed := []
    current_model := none
    status := "queued"
    progress := 0 }

/-- A job mid-run: two models requested, `daily` completed and recorded as
the current model. -/
def jobMidRun : ProcessingJob :=
  { models_to_execute := ["daily", "weekly"]
    models_completed := ["daily"]
    current_model := some "daily"
    status := "running"
    progress := 50 }

/-- A schema whose five required fields are all present but whose first two
entries both lack `source_column` (two malformed entries). -/
def badSchema : DataSchema :=
  [ ("in_dt", ⟨none, some "date"⟩)
  , ("in_trans_id", ⟨none, some "str"⟩)
  , ("in_product_id", ⟨some "producto", some "str"⟩)
  , ("in_quantity", ⟨some "cantidad", some "float"⟩)
  , ("in_price_total", ⟨some "total", some "float"⟩) ]

/-- A two-row dataframe with distinct transaction ids. -/
def dfSample : List RawRow :=
  [ ⟨"T1", 5, 100⟩, ⟨"T2", 0, 40⟩ ]

end Gabeda

/-! ## Helper lemmas -/

namespace Gabeda

theorem add_completed_model_models_to_execute (j : ProcessingJob) (m : String) :
    (add_completed_model j m).job.models_to_execute = j.models_to_execute := by
  simp only [add_completed_model]
  split_ifs <;> rfl

theorem add_completed_model_mem (j : ProcessingJob) (m x : String) :
    x ∈ (add_completed_model j m).job.models_completed ↔
      x ∈ j.models_completed ∨ x = m := by
  simp only [add_completed_model]
  split_ifs with h1 h2
  · exact ⟨Or.inl, fun h => h.elim id (fun e => e ▸ h1)⟩
  · simp
  · simp

theorem add_completed_model_progress (j : ProcessingJob) (m : String)
    (hn : 0 < j.models_to_execute.length)
    (hinv : j.progress =
      100 * j.models_completed.length / j.models_to_execute.length) :
    (add_completed_model j m).job.progress =
        100 * (add_completed_model j m).job.models_completed.length /
          j.models_to_execute.length
      ∧ j.progress ≤ (add_completed_model j m).job.progress := by
  simp only [add_completed_model]
  split_ifs with h1 h2
  · exact ⟨hinv, le_refl _⟩
  · omega
  · refine ⟨by simp, ?_⟩
    rw [hinv]
    exact Nat.div_le_div_right (Nat.mul_le_mul_left 100 (Nat.le_succ _))

theorem execStep_executed (env : String → ModelRun) (s : ExecState)
    (m : String) : (execStep env s m).executed = s.executed ++ [m] := by
  simp only [execStep]
  cases env m <;> rfl

theorem execStep_models_to_execute (env : String → ModelRun) (s : ExecState)
    (m : String) :
    (execStep env s m).job.models_to_execute = s.job.models_to_execute := by
  simp only [execStep]
  cases env m
  · exact add_completed_model_models_to_execute _ _
  · rfl

theorem execStep_mem (env : String → ModelRun) (s : ExecState) (m x : String) :
    x ∈ (execStep env s m).job.models_completed ↔
      x ∈ s.job.models_completed ∨ (x = m ∧ (env m).isOk = true) := by
  simp only [execStep]
  cases h : env m
  · rw [add_completed_model_mem]
    simp [ModelRun.isOk]
  · simp [ModelRun.isOk]

theorem execStep_progress (env : String → ModelRun) (s : ExecState) (m : String)
    (hn : 0 < s.job.models_to_execute.length)
    (hinv : s.job.progress =
      100 * s.job.models_completed.length / s.job.models_to_execute.length) :
    (execStep env s m).job.progress =
        100 * (execStep env s m).job.models_completed.length /
          s.job.models_to_execute.length
      ∧ s.job.progress ≤ (execStep env s m).job.progress := by
  simp only [execStep]
  cases env m
  · exact add_completed_model_progress _ m hn hinv
  · exact ⟨hinv, le_refl _⟩

theorem foldl_execStep_spec (env : String → ModelRun) (models : List String) :
    ∀ s : ExecState,
      (models.foldl (execStep env) s).executed = s.executed ++ models
      ∧ (models.foldl (execStep env) s).job.models_to_execute =
          s.job.models_to_execute
      ∧ ∀ x, x ∈ (models.foldl (execStep env) s).job.models_completed ↔
          x ∈ s.job.models_completed ∨ (x ∈ models ∧ (env x).isOk = true) := by
  induction models with
  | nil => intro s; simp
  | cons m ms ih =>
    intro s
    obtain ⟨ih1, ih2, ih3⟩ := ih (execStep env s m)
    refine ⟨?_, ?_, ?_⟩
    · rw [List.foldl_cons, ih1, execStep_executed]
      simp
    · rw [List.foldl_cons, ih2, execStep_models_to_execute]
    · intro x
      rw [List.foldl_cons, ih3 x, execStep_mem]
      constructor
      · rintro ((h | ⟨rfl, hok⟩) | ⟨hms, hok⟩)
        · exact Or.inl h
        · exact Or.inr ⟨List.mem_cons_self _ _, hok⟩
        · exact Or.inr ⟨List.mem_cons_of_mem _ hms, hok⟩
      · rintro (h | ⟨hmem, hok⟩)
        · exact Or.inl (Or.inl h)
        · rcases List.mem_cons.mp hmem with rfl | hms
          · exact Or.inl (Or.inr ⟨rfl, hok⟩)
          · exact Or.inr ⟨hms, hok⟩

theorem foldl_execStep_progress (env : String → ModelRun)
    (models : List String) :
    ∀ s : ExecState, 0 < s.job.models_to_execute.length →
      s.job.progress =
        100 * s.job.models_completed.length / s.job.models_to_execute.length →
      (models.foldl (execStep env) s).job.progress =
          100 * (models.foldl (execStep env) s).job.models_completed.length /
            s.job.models_to_execute.length
        ∧ s.job.progress ≤ (models.foldl (execStep env) s).job.progress := by
  induction models with
  | nil => intro s _ hinv; exact ⟨hinv, le_refl _⟩
  | cons m ms ih =>
    intro s hn hinv
    obtain ⟨h1, h2⟩ := execStep_progress env s m hn hinv
    have hlen := execStep_models_to_execute env s m
    obtain ⟨ih1, ih2⟩ := ih (execStep env s m) (by rw [hlen]; exact hn)
      (by rw [hlen]; exact h1)
    rw [List.foldl_cons]
    rw [hlen] at ih1
    exact ⟨ih1, le_trans h2 ih2⟩

theorem insertIgnoreConflict_mem (acc : List Transaction) (t u : Transaction)
    (h : u ∈ acc) : u ∈ insertIgnoreConflict acc t := by
  simp only [insertIgnoreConflict]
  split_ifs
  · exact h
  · exact List.mem_append_left _ h

theorem bulk_create_subset (batch : List Transaction) :
    ∀ db u, u ∈ db → u ∈ bulk_create_ignore_conflicts db batch := by
  induction batch with
  | nil => intro db u h; exact h
  | cons t ts ih =>
    intro db u h
    exact ih _ u (insertIgnoreConflict_mem db t u h)

theorem insertIgnoreConflict_key_present (acc : List Transaction)
    (t : Transaction) :
    ∃ u ∈ insertIgnoreConflict acc t, txnKey u = txnKey t := by
  simp only [insertIgnoreConflict]
  split_ifs with h
  · exact h
  · exact ⟨t, List.mem_append_right _ (List.mem_singleton_self t), rfl⟩

theorem bulk_create_key_present (batch : List Transaction) :
    ∀ db t, t ∈ batch →
      ∃ u ∈ bulk_create_ignore_conflicts db batch, txnKey u = txnKey t := by
  induction batch with
  | nil => intro db t h; exact absurd h (List.not_mem_nil t)
  | cons b bs ih =>
    intro db t h
    rcases List.mem_cons.mp h with rfl | hbs
    · obtain ⟨u, hu, hk⟩ := insertIgnoreConflict_key_present db t
      exact ⟨u, bulk_create_subset bs _ u hu, hk⟩
    · exact ih _ t hbs

theorem bulk_create_eq_of_keys_present (batch : List Transaction) :
    ∀ db, (∀ t ∈ batch, ∃ u ∈ db, txnKey u = txnKey t) →
      bulk_create_ignore_conflicts db batch = db := by
  induction batch with
  | nil => intro db _; rfl
  | cons b bs ih =>
    intro db h
    have hb : insertIgnoreConflict db b = db :=
      if_pos (h b (List.mem_cons_self _ _))
    show bulk_create_ignore_conflicts (insertIgnoreConflict db b) bs = db
    rw [hb]
    exact ih db (fun t ht => h t (List.mem_cons_of_mem _ ht))

theorem insertIgnoreConflict_nodup (acc : List Transaction) (t : Transaction)
    (h : (acc.map txnKey).Nodup) :
    ((insertIgnoreConflict acc t).map txnKey).Nodup := by
  simp only [insertIgnoreConflict]
  split_ifs with hc
  · exact h
  · rw [List.map_append]
    simp only [List.map_cons, List.map_nil]
    rw [List.nodup_append]
    refine ⟨h, List.nodup_singleton _, ?_⟩
    intro k hk hk1
    rcases List.mem_map.mp hk with ⟨u, hu, rfl⟩
    exact hc ⟨u, hu, List.mem_singleton.mp hk1⟩

theorem bulk_create_nodup (batch : List Transaction) :
    ∀ db, (db.map txnKey).Nodup →
      ((bulk_create_ignore_conflicts db batch).map txnKey).Nodup := by
  induction batch with
  | nil => intro db h; exact h
  | cons b bs ih =>
    intro db h
    exact ih _ (insertIgnoreConflict_nodup db b h)

theorem validate_fields_eq_none (l : DataSchema) :
    validate_fields l = none ↔
      ∀ p ∈ l, p.2.source_column ≠ none
        ∧ ∃ d, p.2.dtype = some d ∧ d ∈ valid_dtypes := by
  induction l with
  | nil => simp [validate_fields]
  | cons p rest ih =>
    obtain ⟨name, cfg⟩ := p
    simp only [validate_fields]
    cases hc : cfg.source_column with
    | none => simp [hc]
    | some s =>
      cases hd : cfg.dtype with
      | none => simp [hc, hd]
      | some d =>
        by_cases hdv : d ∈ valid_dtypes
        · simp only [if_pos hdv, ih, List.mem_cons]
          constructor
          · rintro h q (rfl | hq)
            · exact ⟨by simp [hc], d, hd, hdv⟩
            · exact h q hq
          · intro h q hq
            exact h q (Or.inr hq)
        · simp only [if_neg hdv]
          constructor
          · intro h; exact absurd h (by simp)
          · intro h
            obtain ⟨-, d2, hd2, hdv2⟩ := h (name, cfg) (List.mem_cons_self _ _)
            rw [hd] at hd2
            exact absurd (Option.some_injective _ hd2 ▸ hdv2) hdv

theorem missing_fields_empty_iff (value : DataSchema) :
    (required_fields.filter
        (fun f => !(value.map Prod.fst).contains f)).isEmpty = true ↔
      ∀ f ∈ required_fields, f ∈ value.map Prod.fst := by
  rw [List.isEmpty_iff, List.filter_eq_nil_iff]
  constructor
  · intro h f hf
    have := h f hf
    simpa using this
  · intro h f hf
    simpa using h f hf

end Gabeda

/-! ## Claim theorems -/

namespace Gabeda

/-- C1, counterexample: for the request `{weekly}`, the executor
(services.py:583-586) walks exactly `["weekly"]`; `daily` is neither
executed before `weekly` nor executed at all, and is absent from the
completed list — even with every model body succeeding. -/
theorem c1_counterexample :
    (execute envAllOk false (jobRequest ["weekly"])).executed = ["weekly"]
    ∧ "daily" ∉ (execute envAllOk false (jobRequest ["weekly"])).executed
    ∧ "daily" ∉
        (execute envAllOk false (jobRequest ["weekly"])).job.models_completed := by
  decide

/-- C1 (amended): pipeline execution runs exactly the requested models in
the requested order — the full 9-model catalog in declared order when the
request is empty — and never adds transitively required dependencies that
were not requested. -/
theorem c1_execution_order (env : String → ModelRun) (job : ProcessingJob) :
    (execute env false job).executed = resolvedModels job := by
  have h := (foldl_execStep_spec env (resolvedModels job) ⟨job, [], []⟩).1
  simpa [execute] using h

/-- C2, counterexample: `weekly` depends on `daily` (per the spec); in a
run requesting `[daily, weekly]` where the `daily` body raises, `weekly`
is still executed and appears in the completed list, while `daily` is
absent from it — the executor (services.py:647-651) continues
unconditionally and never skips dependents of a failed model. -/
theorem c2_counterexample :
    specDependsOn "weekly" "daily" = true
    ∧ (execute envDailyRaises false (jobRequest ["daily", "weekly"])).executed
        = ["daily", "weekly"]
    ∧ "weekly" ∈ (execute envDailyRaises false
        (jobRequest ["daily", "weekly"])).job.models_completed
    ∧ "daily" ∉ (execute envDailyRaises false
        (jobRequest ["daily", "weekly"])).job.models_completed := by
  decide

/-- C2 (amended): a model's failure does not prevent any later model from
being executed, dependent or not: in a run starting from an empty
completed list, every resolved model is executed regardless of earlier
failures, and the completed list contains exactly the models whose own
body returned normally. -/
theorem c2_failure_isolation (env : String → ModelRun) (job : ProcessingJob)
    (h : job.models_completed = []) :
    (execute env false job).executed = resolvedModels job
    ∧ ∀ x, x ∈ (execute env false job).job.models_completed ↔
        x ∈ resolvedModels job ∧ (env x).isOk = true := by
  obtain ⟨h1, h2, h3⟩ := foldl_execStep_spec env (resolvedModels job) ⟨job, [], []⟩
  constructor
  · simpa [execute] using h1
  · intro x
    have hx := h3 x
    rw [show (⟨job, [], []⟩ : ExecState).job.models_completed
          = job.models_completed from rfl, h] at hx
    simp only [List.not_mem_nil, false_or] at hx
    simpa [execute] using hx

theorem c2_failure_isolation_witness :
    (jobRequest ["daily", "weekly"]).models_completed = []
    ∧ ("weekly" ∈ (execute envDailyRaises false
          (jobRequest ["daily", "weekly"])).job.models_completed ↔
        "weekly" ∈ resolvedModels (jobRequest ["daily", "weekly"])
        ∧ (envDailyRaises "weekly").isOk = true) :=
  ⟨rfl, (c2_failure_isolation envDailyRaises (jobRequest ["daily", "weekly"])
      rfl).2 "weekly"⟩

/-- C3: whenever the setup preceding the model loop does not raise
(`loadFails = false`), `execute` returns `success: True`
(services.py:653-657) and `process_pipeline` marks the run `completed`
(tasks.py:307-311) — for EVERY per-model behaviour `env`, including
environments in which every single model body raises. -/
theorem c3_run_completed (env : String → ModelRun) (job : ProcessingJob) :
    (execute env false job).success = true
    ∧ (process_pipeline env false job).status = "completed" :=
  ⟨rfl, rfl⟩

/-- C4: for a run with `n > 0` requested models whose progress satisfies
the invariant `progress = ⌊100 * completed / n⌋`, after the executor
finishes its walk the requested list is unchanged, the final progress
again equals `⌊100 * k / n⌋` for `k` the number of completed models, and
progress never decreased. -/
theorem c4_progress_floor_monotone (env : String → ModelRun)
    (job : ProcessingJob)
    (hn : 0 < job.models_to_execute.length)
    (hinv : job.progress =
      100 * job.models_completed.length / job.models_to_execute.length) :
    (execute env false job).job.models_to_execute = job.models_to_execute
    ∧ (execute env false job).job.progress =
        100 * (execute env false job).job.models_completed.length /
          job.models_to_execute.length
    ∧ job.progress ≤ (execute env false job).job.progress := by
  obtain ⟨-, h2, -⟩ := foldl_execStep_spec env (resolvedModels job) ⟨job, [], []⟩
  obtain ⟨hp1, hp2⟩ :=
    foldl_execStep_progress env (resolvedModels job) ⟨job, [], []⟩ hn hinv
  exact ⟨h2, hp1, hp2⟩

theorem c4_progress_floor_monotone_witness :
    0 < (jobRequest ["daily", "weekly", "monthly"]).models_to_execute.length
    ∧ (jobRequest ["daily", "weekly", "monthly"]).progress =
        100 * (jobRequest ["daily", "weekly", "monthly"]).models_completed.length /
          (jobRequest ["daily", "weekly", "monthly"]).models_to_execute.length
    ∧ (execute envAllOk false
          (jobRequest ["daily", "weekly", "monthly"])).job.progress =
        100 * (execute envAllOk false
            (jobRequest ["daily", "weekly", "monthly"])).job.models_completed.length /
          (jobRequest ["daily", "weekly", "monthly"]).models_to_execute.length
    ∧ (jobRequest ["daily", "weekly", "monthly"]).progress ≤
        (execute envAllOk false
          (jobRequest ["daily", "weekly", "monthly"])).job.progress :=
  ⟨by decide, by decide,
    (c4_progress_floor_monotone envAllOk (jobRequest ["daily", "weekly", "monthly"])
      (by decide) (by decide)).2.1,
    (c4_progress_floor_monotone envAllOk (jobRequest ["daily", "weekly", "monthly"])
      (by decide) (by decide)).2.2⟩

/-- C5: the stored `unit_price` (services.py:199) equals
`revenue_total / quantity` when `quantity > 0` and is exactly `0` when
`quantity = 0`; `mkTransaction` is a total function on exact rationals —
the guard makes the division safe, so the computation never raises and
never produces an undefined value. -/
theorem c5_unit_price (company upload : Nat) (row : RawRow) :
    (0 < row.quantity →
      (mkTransaction company upload row).unit_price = row.total / row.quantity)
    ∧ (row.quantity = 0 → (mkTransaction company upload row).unit_price = 0) := by
  constructor
  · intro h
    simp [mkTransaction, h]
  · intro h
    simp [mkTransaction, h]

theorem c5_unit_price_witness :
    ((0 : ℚ) < (⟨"T1", 5, 100⟩ : RawRow).quantity
      ∧ (mkTransaction 1 1 ⟨"T1", 5, 100⟩).unit_price = 100 / 5)
    ∧ ((⟨"T2", 0, 40⟩ : RawRow).quantity = 0
      ∧ (mkTransaction 1 1 ⟨"T2", 0, 40⟩).unit_price = 0) :=
  ⟨⟨by norm_num, (c5_unit_price 1 1 ⟨"T1", 5, 100⟩).1 (by norm_num)⟩,
   ⟨rfl, (c5_unit_price 1 1 ⟨"T2", 0, 40⟩).2 rfl⟩⟩

end Gabeda

namespace Gabeda

/-- C6, counterexample: `badSchema` has all five required fields present
but its first two entries (`in_dt` and `in_trans_id`) both lack
`source_column`; validation reports only the first malformed entry
(serializers.py:181-197 raises inside the loop), not all of them. -/
theorem c6_counterexample :
    validate_data_schema badSchema =
        .error (.missingSourceColumn "in_dt")
    ∧ ("in_trans_id", (⟨none, some "str"⟩ : FieldConfig)) ∈ badSchema
    ∧ (⟨none, some "str"⟩ : FieldConfig).source_column = none :=
  ⟨rfl, by decide, rfl⟩

/-- C6 (amended): validation fails exactly when a required canonical field
is missing or a field entry is malformed (no source column, no declared
type, or a type outside the recognized set); when required fields are
missing, the single error enumerates ALL of them (in catalog order) and
entries are not examined; malformed entries, however, are reported one at
a time — only the first in schema order. -/
theorem c6_schema_validation (value : DataSchema) :
    (validate_data_schema value = .ok value ↔
      ((∀ f ∈ required_fields, f ∈ value.map Prod.fst)
       ∧ ∀ p ∈ value, p.2.source_column ≠ none
           ∧ ∃ d, p.2.dtype = some d ∧ d ∈ valid_dtypes))
    ∧ ((∃ f ∈ required_fields, f ∉ value.map Prod.fst) →
        validate_data_schema value =
          .error (.missingRequired (required_fields.filter
            (fun f => !(value.map Prod.fst).contains f)))) := by
  by_cases he : (required_fields.filter
      (fun f => !(value.map Prod.fst).contains f)).isEmpty = true
  · have hreq : ∀ f ∈ required_fields, f ∈ value.map Prod.fst :=
      (missing_fields_empty_iff value).mp he
    constructor
    · simp only [validate_data_schema, if_pos he]
      cases hv : validate_fields value with
      | some e =>
        constructor
        · intro h
          exact absurd h (by simp)
        · rintro ⟨-, h2⟩
          exact absurd ((validate_fields_eq_none value).mpr h2) (by simp [hv])
      | none =>
        constructor
        · intro _
          exact ⟨hreq, (validate_fields_eq_none value).mp hv⟩
        · intro _
          rfl
    · rintro ⟨f, hf, hnf⟩
      exact absurd (hreq f hf) hnf
  · constructor
    · simp only [validate_data_schema, if_neg he]
      constructor
      · intro h
        exact absurd h (by simp)
      · rintro ⟨h1, -⟩
        exact absurd ((missing_fields_empty_iff value).mpr h1) he
    · intro _
      simp only [validate_data_schema, if_neg he]

theorem c6_schema_validation_witness :
    (∃ f ∈ required_fields,
        f ∉ ([("in_dt", (⟨some "fecha", some "date"⟩ : FieldConfig))].map Prod.fst))
    ∧ validate_data_schema [("in_dt", ⟨some "fecha", some "date"⟩)] =
        .error (.missingRequired
          ["in_trans_id", "in_product_id", "in_quantity", "in_price_total"]) :=
  ⟨by decide,
    (c6_schema_validation [("in_dt", ⟨some "fecha", some "date"⟩)]).2 (by decide)⟩

/-- C7: an empty model list resolves to the full 9-model catalog, both at
validation (serializers.py:379-381) and at execution (services.py:583);
a request containing unknown model names is rejected with one error
listing every unrecognized name (serializers.py:383-388); a nonempty
request of known names is accepted unchanged. -/
theorem c7_model_list_validation :
    validate_models_to_execute [] = .ok valid_models
    ∧ valid_models = MODEL_NAMES
    ∧ MODEL_NAMES.length = 9
    ∧ (∀ j : ProcessingJob, j.models_to_execute = [] →
        resolvedModels j = MODEL_NAMES)
    ∧ (∀ value : List String, (∃ m ∈ value, m ∉ valid_models) →
        validate_models_to_execute value =
          .error (.invalidModels
            (value.filter (fun m => !valid_models.contains m))))
    ∧ (∀ value : List String, value ≠ [] → (∀ m ∈ value, m ∈ valid_models) →
        validate_models_to_execute value = .ok value) := by
  refine ⟨rfl, rfl, rfl, ?_, ?_, ?_⟩
  · intro j h
    simp [resolvedModels, h]
  · rintro value ⟨m, hm, hnm⟩
    have hne : value.isEmpty = false := by
      cases value with
      | nil => cases hm
      | cons a l => rfl
    have hmem : m ∈ value.filter (fun x => !valid_models.contains x) :=
      List.mem_filter.mpr ⟨hm, by simpa using hnm⟩
    have hinv : (value.filter (fun x => !valid_models.contains x)).isEmpty
        = false := by
      cases hf : value.filter (fun x => !valid_models.contains x) with
      | nil => rw [hf] at hmem; cases hmem
      | cons a l => rfl
    simp [validate_models_to_execute, hne, hinv]
    exact ⟨m, hm, hnm⟩
  · intro value hne hall
    have he : value.isEmpty = false := by
      cases value with
      | nil => exact absurd rfl hne
      | cons a l => rfl
    have hf : (value.filter fun x => !valid_models.contains x) = [] :=
      List.filter_eq_nil_iff.mpr (fun a ha => by simpa using hall a ha)
    simp [validate_models_to_execute, he, hf]
    exact hall

theorem c7_model_list_validation_witness :
    (∃ m ∈ ["weekly", "bogus", "nope"], m ∉ valid_models)
    ∧ validate_models_to_execute ["weekly", "bogus", "nope"] =
        .error (.invalidModels ["bogus", "nope"]) :=
  ⟨by decide,
    c7_model_list_validation.2.2.2.2.1 ["weekly", "bogus", "nope"] (by decide)⟩

/-- C8: re-running `_save_transactions` ingestion over a table that
already contains the batch is the identity (idempotent re-ingestion, no
exception — the embedding is a total function), and ingestion preserves
uniqueness of the `(company, transaction_id, upload)` identity, so no
duplicate rows are ever created; colliding rows are skipped silently
without aborting the batch (services.py:220-221, models.py:106). -/
theorem c8_reingestion_idempotent (company upload : Nat)
    (db : List Transaction) (df : List RawRow) :
    save_transactions company upload (save_transactions company upload db df) df
      = save_transactions company upload db df
    ∧ ((db.map txnKey).Nodup →
        ((save_transactions company upload db df).map txnKey).Nodup) := by
  constructor
  · exact bulk_create_eq_of_keys_present _ _
      (fun t ht => bulk_create_key_present _ db t ht)
  · intro h
    exact bulk_create_nodup _ db h

theorem c8_reingestion_idempotent_witness :
    (([] : List Transaction).map txnKey).Nodup
    ∧ ((save_transactions 1 1 [] dfSample).map txnKey).Nodup :=
  ⟨by decide, (c8_reingestion_idempotent 1 1 [] dfSample).2 (by decide)⟩

/-- C9, counterexample: a pipeline-level failure (`loadFails = true`)
handled by `process_pipeline` on a job whose `current_model` is `daily`
leaves the run in terminal status `failed` with `current_model` still
`daily` — the failure branch (tasks.py:316-327) writes the field back
unchanged instead of clearing it. -/
theorem c9_counterexample :
    (process_pipeline envAllOk true jobMidRun).status = "failed"
    ∧ (process_pipeline envAllOk true jobMidRun).current_model
        = some "daily" := by
  decide

/-- C9 (amended): `current_model` is set to null on the transition to
`completed` (tasks.py:311), but the transition to `failed` leaves it
unchanged — it is the pre-failure value that is saved, not null; no
transition to `cancelled` exists in the code. -/
theorem c9_current_model_transitions (env : String → ModelRun)
    (job : ProcessingJob) :
    (process_pipeline env false job).current_model = none
    ∧ (process_pipeline env true job).status = "failed"
    ∧ (process_pipeline env true job).current_model = job.current_model :=
  ⟨rfl, rfl, rfl⟩

/-- C10: recording an already-recorded model completion is a no-op —
`add_completed_model` (models.py:336-341) with a name already in
`models_completed` changes neither the completed list nor the progress,
and performs no save. -/
theorem c10_add_completed_model_idempotent (j : ProcessingJob) (m : String)
    (h : m ∈ j.models_completed) :
    add_completed_model j m = ⟨j, false⟩ := by
  simp [add_completed_model, h]

theorem c10_add_completed_model_idempotent_witness :
    "daily" ∈ jobMidRun.models_completed
    ∧ add_completed_model jobMidRun "daily" = ⟨jobMidRun, false⟩ :=
  ⟨by decide, c10_add_completed_model_idempotent jobMidRun "daily" (by decide)⟩

end Gabeda
